import Mathlib

/-!
Verification of the record-to-document projection and comparison engine of the
NS-Dev-Tool repository (NetSuite record viewer).  The definitions below are a
shallow embedding of the JavaScript sources:

* `modules/RecordDataService.js`  — `getFullRecordData` (the projection),
* `SL_record_json_view.js`        — the Suitelet's inline copy of
  `getFullRecordData` (identical except that it performs no parameter
  validation before `record.load`) and `compareRecords`,
* the `RecordComparisonService` module — `compareRecords` (verbatim the same
  comparison logic as the Suitelet's copy, calling the validated projection).

The NetSuite host (`record.load`, `N/runtime`, field/sublist accessors) is an
external capability; it is modelled by the `Host` and `RecordHandle`
structures whose members are the host calls the scripts make.  A JavaScript
accessor that can throw is modelled as returning `Except`, with the error
message (the only part of a field-level exception the code reads) as the
error payload.  JavaScript objects built by key insertion are modelled as
association lists (`setAssoc` reproduces object-assignment semantics:
overwrite in place, keep first-insertion position).
-/

/-- JavaScript scalar values as they flow through the projection: strings,
numbers (the records under test use integral values; strict `!==` on them is
structural equality), booleans and `null`.  `undefined` is represented by
`Option.none` at the use sites (an absent property). -/
inductive JSValue where
  | str (s : String)
  | num (n : Int)
  | jbool (b : Bool)
  | null
deriving DecidableEq, Repr

/-- The object returned by `recordObj.getField`: `label`, `type`,
`isMandatory`, `isDisplay`, each possibly `undefined` (`none`). -/
structure FieldObj where
  label : Option String
  type : Option String
  isMandatory : Option Bool
  isDisplay : Option Bool
deriving DecidableEq, Repr

/-- The loaded record object (`record.load` result): every host accessor the
projection code calls.  Accessors that the code wraps in `try`/`catch` return
`Except String _` (the `String` is `e.message`); enumeration calls
(`getFields`, `getSublists`, `getLineCount`, `getSublistFields`) are called
outside any per-field `catch` and are modelled as total. -/
structure RecordHandle where
  getFields : List String
  getValue : String → Except String JSValue
  getText : String → Except String JSValue
  getField : String → Except String (Option FieldObj)
  getSublists : List String
  getLineCount : String → Nat
  getSublistFields : String → List String
  getSublistValue : String → String → Nat → Except String JSValue
  getSublistText : String → String → Nat → Except String JSValue
  getSublistField : String → String → Nat → Except String (Option String)

/-- A JavaScript `Error` as the outer `catch` of `getFullRecordData` reads
it: `name`, `message`, and an optional `stack` string. -/
structure JSError where
  name : String
  message : String
  stack : Option String
deriving DecidableEq, Repr

/-- The host platform: `record.load` (which may throw), the current user id
(`runtime.getCurrentUser().id`) and the load timestamp
(`new Date().toISOString()`), the latter two observational values supplied by
the environment. -/
structure Host where
  load : String → String → Except JSError RecordHandle
  currentUserId : Int
  nowIso : String

/-- JavaScript `a || b` for strings: the empty string is falsy. -/
def jsOrStr (s d : String) : String :=
  if s = "" then d else s

/-- JavaScript `a || b` where `a` is a possibly-undefined string property. -/
def jsOrOptStr (o : Option String) (d : String) : String :=
  match o with
  | some s => jsOrStr s d
  | none => d

/-- JavaScript `a || false` where `a` is a possibly-undefined boolean. -/
def jsOrOptBool (o : Option Bool) : Bool :=
  o.getD false

/-- `String(e)` for a JavaScript `Error`: `name: message` with empty parts
omitted. -/
def jsErrorToString (e : JSError) : String :=
  if e.name = "" then e.message
  else if e.message = "" then e.name
  else e.name ++ ": " ++ e.message

/-- JavaScript object assignment `obj[k] = v` on an association list:
overwrites an existing key in place (keeping its original position),
otherwise appends. -/
def setAssoc {β : Type} (l : List (String × β)) (k : String) (v : β) :
    List (String × β) :=
  match l with
  | [] => [(k, v)]
  | (k', v') :: rest =>
    if k' = k then (k, v) :: rest else (k', v') :: setAssoc rest k v

/-- JavaScript property read `obj[k]` on an association list (first match;
lists built with `setAssoc` have unique keys). -/
def alookup {β : Type} (l : List (String × β)) (k : String) : Option β :=
  match l with
  | [] => none
  | (k', v) :: rest => if k' = k then some v else alookup rest k

/-- `Object.keys`, in insertion order. -/
def akeys {β : Type} (l : List (String × β)) : List String :=
  l.map Prod.fst

/-- Iteration worklist of `new Set([...a, ...b])`: elements in first-seen
order, duplicates dropped.  `seen` accumulates the already-emitted keys. -/
def jsSetAux (seen : List String) : List String → List String
  | [] => []
  | k :: rest =>
    if k ∈ seen then jsSetAux seen rest else k :: jsSetAux (k :: seen) rest

/-- `new Set([...a, ...b])` as an iteration list. -/
def jsSetUnion (a b : List String) : List String :=
  jsSetAux [] (a ++ b)

/-- A fresh object populated by `forEach`-with-conditional-assignment over a
duplicate-free key list: one entry per key for which the body produces a
value. -/
def buildObj {β : Type} : List String → (String → Option β) → List (String × β)
  | [], _ => []
  | k :: rest, g =>
    match g k with
    | some v => (k, v) :: buildObj rest g
    | none => buildObj rest g

/-- One projected body field (`recordData.fields[fieldId]`): either the
well-formed entry `{label, type, value, text?, isMandatory, isDisplay}` or
the failure-shaped entry `{label, error}` written by the per-field `catch`. -/
inductive FieldEntry where
  | ok (label : String) (type : String) (value : JSValue)
      (text : Option JSValue) (isMandatory : Bool) (isDisplay : Bool)
  | err (label : String) (error : String)
deriving DecidableEq, Repr

/-- JavaScript property read `entry.value`: `undefined` (`none`) on an
error-shaped entry. -/
def FieldEntry.value? : FieldEntry → Option JSValue
  | .ok _ _ v _ _ _ => some v
  | .err _ _ => none

/-- JavaScript property read `entry.text`. -/
def FieldEntry.text? : FieldEntry → Option JSValue
  | .ok _ _ _ t _ _ => t
  | .err _ _ => none

/-- JavaScript property read `entry.label` (present on both shapes). -/
def FieldEntry.label : FieldEntry → String
  | .ok l _ _ _ _ _ => l
  | .err l _ => l

/-- Whether the entry is the failure shape `{label, error}`. -/
def FieldEntry.isErr : FieldEntry → Bool
  | .ok _ _ _ _ _ _ => false
  | .err _ _ => true

/-- One projected sublist cell (`lineData[columnId]`): `{label, value,
text?}` or the failure shape `{label, error}`. -/
inductive CellEntry where
  | ok (label : String) (value : JSValue) (text : Option JSValue)
  | err (label : String) (error : String)
deriving DecidableEq, Repr

/-- JavaScript property read `cell.text`. -/
def CellEntry.text? : CellEntry → Option JSValue
  | .ok _ _ t => t
  | .err _ _ => none

/-- One projected sublist line: `{_lineNumber, [columnId]: CellEntry}`. -/
structure LineProjection where
  lineNumber : Nat
  cells : List (String × CellEntry)
deriving DecidableEq, Repr

/-- `sublists[sublistId].metadata`: `lineCount` always, `truncated` and
`displayedLines` only set when the cap was exceeded (`none` = property
absent). -/
structure SublistMeta where
  lineCount : Nat
  truncated : Option Bool
  displayedLines : Option Nat
deriving DecidableEq, Repr

/-- One projected sublist: `{lines, metadata}`. -/
structure Sublist where
  lines : List LineProjection
  metadata : SublistMeta
deriving DecidableEq, Repr

/-- `recordData.metadata`. -/
structure DocMetadata where
  loadedAt : String
  loadedBy : Int
deriving DecidableEq, Repr

/-- The projected Document (`recordData`). -/
structure Document where
  type : String
  id : String
  isDynamic : Bool
  metadata : DocMetadata
  fields : List (String × FieldEntry)
  sublists : List (String × Sublist)
deriving DecidableEq, Repr

/-- `options` argument of `getFullRecordData`: the optional
`includeFields` / `includeSublists` allow-lists (`none` = property absent;
`some []` = present but empty, which in JavaScript is truthy and filters
everything out). -/
structure ProjOptions where
  includeFields : Option (List String)
  includeSublists : Option (List String)

/-- `getFullRecordData(recordType, recordId)` called with no `options`. -/
def noOptions : ProjOptions := ⟨none, none⟩

/-- The filter test `!(options.includeX && !options.includeX.includes(id))`. -/
def passesFilter (allow : Option (List String)) (id : String) : Bool :=
  match allow with
  | none => true
  | some l => l.contains id

/-- `CONFIG.MAX_SUBLIST_LINES`. -/
def MAX_SUBLIST_LINES : Nat := 1000

/-- The per-field body of the projection loop (RecordDataService.js lines
68-103): `getValue` and `getText` run inside the same `try`, so either
failure produces the `{label: fieldId, error}` entry; `getField` runs in its
own inner `try` and its failure (or a `null` result) only keeps the
defaults (label = field id, empty type, flags false). -/
def projectField (r : RecordHandle) (fieldId : String) : FieldEntry :=
  match r.getValue fieldId with
  | .error e => .err fieldId e
  | .ok fieldValue =>
    match r.getText fieldId with
    | .error e => .err fieldId e
    | .ok fieldText =>
      match r.getField fieldId with
      | .ok (some fieldObj) =>
        .ok (jsOrOptStr fieldObj.label fieldId) (jsOrOptStr fieldObj.type "")
          fieldValue (if fieldText ≠ fieldValue then some fieldText else none)
          (jsOrOptBool fieldObj.isMandatory) (jsOrOptBool fieldObj.isDisplay)
      | _ =>
        .ok fieldId "" fieldValue
          (if fieldText ≠ fieldValue then some fieldText else none)
          false false

/-- The per-cell body of the sublist loop (RecordDataService.js lines
144-179): `getSublistValue` and `getSublistText` share one `try`;
`getSublistField` (the label lookup) has its own inner `try` whose failure
keeps the column id as label. -/
def projectCell (r : RecordHandle) (sublistId columnId : String) (line : Nat) :
    CellEntry :=
  match r.getSublistValue sublistId columnId line with
  | .error e => .err columnId e
  | .ok columnValue =>
    match r.getSublistText sublistId columnId line with
    | .error e => .err columnId e
    | .ok columnText =>
      let columnLabel :=
        match r.getSublistField sublistId columnId line with
        | .ok lbl => jsOrOptStr lbl columnId
        | .error _ => columnId
      .ok columnLabel columnValue
        (if columnText ≠ columnValue then some columnText else none)

/-- One sublist line (`lineData`): `_lineNumber = line + 1` plus one cell per
column, columns re-enumerated per line as in the source. -/
def projectLine (r : RecordHandle) (sublistId : String) (line : Nat) :
    LineProjection :=
  let columns := r.getSublistFields sublistId
  { lineNumber := line + 1
    cells := columns.foldl
      (fun acc columnId =>
        setAssoc acc columnId (projectCell r sublistId columnId line)) [] }

/-- One projected sublist (RecordDataService.js lines 122-183): true
`lineCount` recorded, `maxLines = min(lineCount, MAX_SUBLIST_LINES)` lines
built, truncation metadata set only when the cap was exceeded. -/
def projectSublist (r : RecordHandle) (sublistId : String) : Sublist :=
  let lineCount := r.getLineCount sublistId
  let maxLines := min lineCount MAX_SUBLIST_LINES
  { lines := (List.range maxLines).map (projectLine r sublistId)
    metadata :=
      if lineCount > MAX_SUBLIST_LINES then
        { lineCount := lineCount, truncated := some true
          displayedLines := some maxLines }
      else
        { lineCount := lineCount, truncated := none, displayedLines := none } }

/-- The successfully-loaded branch of `getFullRecordData`: the `recordData`
object with every (unfiltered) body field and sublist projected. -/
def projectDocument (h : Host) (r : RecordHandle)
    (recordType recordId : String) (options : ProjOptions) : Document :=
  { type := recordType
    id := recordId
    isDynamic := false
    metadata := { loadedAt := h.nowIso, loadedBy := h.currentUserId }
    fields := r.getFields.foldl
      (fun acc fieldId =>
        if passesFilter options.includeFields fieldId then
          setAssoc acc fieldId (projectField r fieldId)
        else acc) []
    sublists := r.getSublists.foldl
      (fun acc sublistId =>
        if passesFilter options.includeSublists sublistId then
          setAssoc acc sublistId (projectSublist r sublistId)
        else acc) [] }

/-- The discriminated result of `getFullRecordData`: `{success:true, data}`
or `{success:false, error:{code, message, details}}` (the performance trace
is purely observational and not modelled). -/
inductive ProjResult where
  | ok (data : Document)
  | fail (code : String) (message : String) (details : List String)
deriving DecidableEq, Repr

/-- The `success` discriminant of a projection result. -/
def ProjResult.isSuccess : ProjResult → Bool
  | .ok _ => true
  | .fail _ _ _ => false

/-- The failure result built by the outer `catch` of `getFullRecordData`:
`code = e.name || "ERROR"`, `message = e.message || "Unknown error"`,
`details = e.stack ? e.stack.split("\n") : [String(e)]`. -/
def loadFailure (e : JSError) : ProjResult :=
  .fail (jsOrStr e.name "ERROR") (jsOrStr e.message "Unknown error")
    (match e.stack with
     | some st => st.splitOn "\n"
     | none => [jsErrorToString e])

/-- The `Error` thrown by the parameter validation of
`RecordDataService.getFullRecordData`. -/
def validationError : JSError :=
  { name := "Error", message := "Record type and ID are required"
    stack := none }

/-- `RecordDataService.getFullRecordData`: validates that both parameters are
non-empty (throwing, hence failing, before `record.load`), then loads the
record and projects it; the load is the only call whose failure fails the
whole projection. -/
def rdsGetFullRecordData (h : Host) (recordType recordId : String)
    (options : ProjOptions) : ProjResult :=
  if recordType = "" ∨ recordId = "" then loadFailure validationError
  else
    match h.load recordType recordId with
    | .error e => loadFailure e
    | .ok r => .ok (projectDocument h r recordType recordId options)

/-- The Suitelet's inline `getFullRecordData` (SL_record_json_view.js lines
61-238): identical to the service version except that it performs no
parameter validation and calls `record.load` directly. -/
def slGetFullRecordData (h : Host) (recordType recordId : String)
    (options : ProjOptions) : ProjResult :=
  match h.load recordType recordId with
  | .error e => loadFailure e
  | .ok r => .ok (projectDocument h r recordType recordId options)

/-- One side of a field diff: the side's FieldProjection object, or the
literal `{value: null}` placeholder used when the side lacks the field
(`field || {value: null}`). -/
inductive DiffSide where
  | entry (e : FieldEntry)
  | nullValue
deriving DecidableEq, Repr

/-- `field || {value: null}`. -/
def jsDiffSide : Option FieldEntry → DiffSide
  | some e => .entry e
  | none => .nullValue

/-- A per-field diff entry. -/
structure FieldDiff where
  label : String
  record1 : DiffSide
  record2 : DiffSide
  isDifferent : Bool
deriving DecidableEq, Repr

/-- `(field1 && field1.label) || (field2 && field2.label) || fieldId`. -/
def diffLabel (field1 field2 : Option FieldEntry) (fieldId : String) :
    String :=
  match field1 with
  | some e1 =>
    if e1.label ≠ "" then e1.label
    else
      match field2 with
      | some e2 => if e2.label ≠ "" then e2.label else fieldId
      | none => fieldId
  | none =>
    match field2 with
    | some e2 => if e2.label ≠ "" then e2.label else fieldId
    | none => fieldId

/-- The emission condition of the field-comparison loop:
`!field1 || !field2 || field1.value !== field2.value`. -/
def fieldDiffCond (field1 field2 : Option FieldEntry) : Bool :=
  match field1, field2 with
  | some e1, some e2 => decide (e1.value? ≠ e2.value?)
  | _, _ => true

/-- The diff entry written by `differences.fields[fieldId] = ...`. -/
def mkFieldDiff (fieldId : String) (field1 field2 : Option FieldEntry) :
    FieldDiff :=
  { label := diffLabel field1 field2 fieldId
    record1 := jsDiffSide field1
    record2 := jsDiffSide field2
    isDifferent := true }

/-- The field-comparison loop of `compareRecords`: over the set-union of the
two field-id lists, emit a diff entry exactly when the source's condition
fires. -/
def compareFields (f1 f2 : List (String × FieldEntry)) :
    List (String × FieldDiff) :=
  buildObj (jsSetUnion (akeys f1) (akeys f2)) (fun fieldId =>
    if fieldDiffCond (alookup f1 fieldId) (alookup f2 fieldId) then
      some (mkFieldDiff fieldId (alookup f1 fieldId) (alookup f2 fieldId))
    else none)

/-- A per-sublist diff entry (line counts only). -/
structure SublistDiff where
  record1LineCount : Nat
  record2LineCount : Nat
  isDifferent : Bool
deriving DecidableEq, Repr

/-- `sublist ? sublist.lines.length : 0`. -/
def jsLinesLength : Option Sublist → Nat
  | some s => s.lines.length
  | none => 0

/-- The sublist-comparison loop of `compareRecords`: over the set-union of
the sublist ids, emit an entry exactly when the displayed line counts
differ (deliberately shallow: cell contents are never inspected). -/
def compareSublists (s1 s2 : List (String × Sublist)) :
    List (String × SublistDiff) :=
  buildObj (jsSetUnion (akeys s1) (akeys s2)) (fun sublistId =>
    let lineCount1 := jsLinesLength (alookup s1 sublistId)
    let lineCount2 := jsLinesLength (alookup s2 sublistId)
    if lineCount1 ≠ lineCount2 then
      some { record1LineCount := lineCount1, record2LineCount := lineCount2
             isDifferent := true }
    else none)

/-- The `differences` object of a successful comparison. -/
structure Differences where
  fields : List (String × FieldDiff)
  sublists : List (String × SublistDiff)
deriving DecidableEq, Repr

/-- The result of `compareRecords`: on success the sparse diff plus both
complete projected documents; on failure only an error string. -/
inductive CompareResult where
  | ok (differences : Differences) (record1 record2 : Document)
  | fail (error : String)
deriving DecidableEq, Repr

/-- `compareRecords(recordType, recordId1, recordId2)` (the
RecordComparisonService module; the Suitelet carries a verbatim copy calling
its own projection): project both ids with no options, fail as a whole if
either projection failed, otherwise compare fields by value and sublists by
displayed line count. -/
def compareRecords (h : Host) (recordType recordId1 recordId2 : String) :
    CompareResult :=
  let record1 := rdsGetFullRecordData h recordType recordId1 noOptions
  let record2 := rdsGetFullRecordData h recordType recordId2 noOptions
  match record1, record2 with
  | .ok d1, .ok d2 =>
    .ok { fields := compareFields d1.fields d2.fields
          sublists := compareSublists d1.sublists d2.sublists } d1 d2
  | _, _ => .fail "Failed to load one or both records"

/-! ### Concrete sample hosts

Small concrete record sources used to evaluate the theorems below on
explicit inputs. -/

/-- A record-does-not-exist load error as the host raises it. -/
def notFoundError : JSError :=
  { name := "RCRD_DSNT_EXIST", message := "That record does not exist."
    stack := none }

/-- Record 1 of the comparison sample: fields `amount = 100`,
`memo = "hello"`, `onlya = "left"`; sublist `items` with 3 lines and
`notes` with 2 lines whose cell value is `1`. -/
def handleCmp1 : RecordHandle :=
  { getFields := ["amount", "memo", "onlya"]
    getValue := fun f =>
      if f = "amount" then .ok (.num 100)
      else if f = "memo" then .ok (.str "hello")
      else if f = "onlya" then .ok (.str "left")
      else .error "no such field"
    getText := fun f =>
      if f = "amount" then .ok (.num 100)
      else if f = "memo" then .ok (.str "hello")
      else if f = "onlya" then .ok (.str "left")
      else .error "no such field"
    getField := fun _ => .ok none
    getSublists := ["items", "notes"]
    getLineCount := fun s =>
      if s = "items" then 3 else if s = "notes" then 2 else 0
    getSublistFields := fun _ => ["col"]
    getSublistValue := fun _ _ _ => .ok (.num 1)
    getSublistText := fun _ _ _ => .ok (.num 1)
    getSublistField := fun _ _ _ => .error "no label" }

/-- Record 2 of the comparison sample: `amount = 200`, `memo = "hello"`, no
`onlya`; sublist `items` with 5 lines and `notes` with 2 lines whose cell
value is `99` (same count as record 1, different content). -/
def handleCmp2 : RecordHandle :=
  { getFields := ["amount", "memo"]
    getValue := fun f =>
      if f = "amount" then .ok (.num 200)
      else if f = "memo" then .ok (.str "hello")
      else .error "no such field"
    getText := fun f =>
      if f = "amount" then .ok (.num 200)
      else if f = "memo" then .ok (.str "hello")
      else .error "no such field"
    getField := fun _ => .ok none
    getSublists := ["items", "notes"]
    getLineCount := fun s =>
      if s = "items" then 5 else if s = "notes" then 2 else 0
    getSublistFields := fun _ => ["col"]
    getSublistValue := fun _ _ _ => .ok (.num 99)
    getSublistText := fun _ _ _ => .ok (.num 99)
    getSublistField := fun _ _ _ => .error "no label" }

/-- Comparison host: `customer` records `1` and `2` load as the two sample
handles, everything else fails to load. -/
def cmpHost : Host :=
  { load := fun t i =>
      if t = "customer" ∧ i = "1" then .ok handleCmp1
      else if t = "customer" ∧ i = "2" then .ok handleCmp2
      else .error notFoundError
    currentUserId := 42
    nowIso := "2026-10-11T00:00:00.000Z" }

/-- Host under which every id of type `customer` resolves to the same record
state (for the identical-documents comparison). -/
def eqHost : Host :=
  { load := fun t _ =>
      if t = "customer" then .ok handleCmp1 else .error notFoundError
    currentUserId := 42
    nowIso := "2026-10-11T00:00:00.000Z" }

/-- Host whose record `2` fails to load. -/
def failHost : Host :=
  { load := fun t i =>
      if t = "customer" ∧ i = "1" then .ok handleCmp1
      else .error notFoundError
    currentUserId := 42
    nowIso := "2026-10-11T00:00:00.000Z" }

/-- Partial-failure sample record: field `good` reads fine, field `bad`
fails on `getValue`; sublist `items` (2 lines, columns `colA`/`colB`) whose
`colB` cells fail to read. -/
def handlePart : RecordHandle :=
  { getFields := ["good", "bad"]
    getValue := fun f =>
      if f = "good" then .ok (.num 7) else .error "Field read failed"
    getText := fun f =>
      if f = "good" then .ok (.num 7) else .error "no text"
    getField := fun _ => .ok none
    getSublists := ["items"]
    getLineCount := fun s => if s = "items" then 2 else 0
    getSublistFields := fun _ => ["colA", "colB"]
    getSublistValue := fun _ c _ =>
      if c = "colB" then .error "Cell read failed" else .ok (.str "v")
    getSublistText := fun _ _ _ => .ok (.str "v")
    getSublistField := fun _ _ _ => .error "no label" }

/-- Host for the partial-failure sample. -/
def partHost : Host :=
  { load := fun t i =>
      if t = "customer" ∧ i = "1" then .ok handlePart
      else .error notFoundError
    currentUserId := 42
    nowIso := "2026-10-11T00:00:00.000Z" }

/-- Truncation sample record: sublist `items` has 1500 source lines, sublist
`notes` has 3. -/
def handleTrunc : RecordHandle :=
  { getFields := []
    getValue := fun _ => .error "no such field"
    getText := fun _ => .error "no such field"
    getField := fun _ => .ok none
    getSublists := ["items", "notes"]
    getLineCount := fun s =>
      if s = "items" then 1500 else if s = "notes" then 3 else 0
    getSublistFields := fun _ => []
    getSublistValue := fun _ _ _ => .ok .null
    getSublistText := fun _ _ _ => .ok .null
    getSublistField := fun _ _ _ => .error "no label" }

/-- Host for the truncation sample. -/
def truncHost : Host :=
  { load := fun t i =>
      if t = "salesorder" ∧ i = "9" then .ok handleTrunc
      else .error notFoundError
    currentUserId := 42
    nowIso := "2026-10-11T00:00:00.000Z" }

/-- Degradation sample record: field `f` has a readable value but `getText`
throws; field `g` has readable value and text but `getField` throws; field
`same` has text equal to its value. -/
def handleDegrade : RecordHandle :=
  { getFields := ["f", "g", "same"]
    getValue := fun f =>
      if f = "f" then .ok (.num 5)
      else if f = "g" then .ok (.num 5)
      else if f = "same" then .ok (.str "x")
      else .error "no such field"
    getText := fun f =>
      if f = "f" then .error "text unavailable"
      else if f = "g" then .ok (.str "five")
      else if f = "same" then .ok (.str "x")
      else .error "no such field"
    getField := fun _ => .error "meta unavailable"
    getSublists := ["items"]
    getLineCount := fun s => if s = "items" then 1 else 0
    getSublistFields := fun _ => ["c"]
    getSublistValue := fun _ _ _ => .ok (.str "x")
    getSublistText := fun _ _ _ => .ok (.str "x")
    getSublistField := fun _ _ _ => .error "no label" }

/-- A host that permits loading any (type, id) pair, including empty
strings: used to observe that the Suitelet's unvalidated projection really
reaches `record.load`. -/
def permHost : Host :=
  { load := fun _ _ => .ok handleDegrade
    currentUserId := 42
    nowIso := "2026-10-11T00:00:00.000Z" }

/-! ### Association-list and set lemmas -/

/-- `setAssoc` stores the assigned value under its key. -/
theorem alookup_setAssoc_self {β : Type} (l : List (String × β)) (k : String)
    (v : β) : alookup (setAssoc l k v) k = some v := by
  induction l with
  | nil => simp [setAssoc, alookup]
  | cons p rest ih =>
    obtain ⟨k', v'⟩ := p
    by_cases hk : k' = k
    · simp [setAssoc, hk, alookup]
    · simp [setAssoc, hk, alookup, ih]

/-- `setAssoc` leaves every other key unchanged. -/
theorem alookup_setAssoc_ne {β : Type} (l : List (String × β))
    (k k' : String) (v : β) (hne : k ≠ k') :
    alookup (setAssoc l k v) k' = alookup l k' := by
  induction l with
  | nil => simp [setAssoc, alookup, hne]
  | cons p rest ih =>
    obtain ⟨k0, v0⟩ := p
    by_cases hk : k0 = k
    · subst hk; simp [setAssoc, alookup, hne]
    · simp [setAssoc, hk, alookup, ih]

/-- Looking a key up in an object built by a filtered
assign-for-each-listed-id loop: the key maps to its (key-determined) value
exactly when it is listed and passes the filter. -/
theorem alookup_foldl_setAssoc {β : Type} (f : String → β) (p : String → Bool)
    (l : List String) (acc : List (String × β)) (k : String) :
    alookup
        (l.foldl (fun a x => if p x then setAssoc a x (f x) else a) acc) k
      = if k ∈ l ∧ p k = true then some (f k) else alookup acc k := by
  induction l generalizing acc with
  | nil => simp
  | cons x rest ih =>
    rw [List.foldl_cons, ih]
    by_cases hpk : p k = true
    · by_cases hmem : k ∈ rest
      · simp [hmem, hpk]
      · by_cases hx : x = k
        · subst hx
          simp [hmem, hpk, alookup_setAssoc_self]
        · have hcond : ¬(k ∈ x :: rest ∧ p k = true) := by
            rintro ⟨hm, _⟩
            rcases List.mem_cons.mp hm with h1 | h2
            · exact hx h1.symm
            · exact hmem h2
          rw [if_neg (by simp [hmem]), if_neg hcond]
          by_cases hpx : p x = true
          · rw [if_pos hpx, alookup_setAssoc_ne _ _ _ _ hx]
          · rw [if_neg hpx]
    · have hc1 : ¬(k ∈ rest ∧ p k = true) := fun h => hpk h.2
      have hc2 : ¬(k ∈ x :: rest ∧ p k = true) := fun h => hpk h.2
      rw [if_neg hc1, if_neg hc2]
      by_cases hpx : p x = true
      · by_cases hx : x = k
        · subst hx; exact absurd hpx hpk
        · rw [if_pos hpx, alookup_setAssoc_ne _ _ _ _ hx]
      · rw [if_neg hpx]

/-- Unfiltered version for the per-line cell loop. -/
theorem alookup_foldl_setAssoc_all {β : Type} (f : String → β)
    (l : List String) (acc : List (String × β)) (k : String) :
    alookup (l.foldl (fun a x => setAssoc a x (f x)) acc) k
      = if k ∈ l then some (f k) else alookup acc k := by
  induction l generalizing acc with
  | nil => simp
  | cons x rest ih =>
    rw [List.foldl_cons, ih]
    by_cases hmem : k ∈ rest
    · simp [hmem]
    · by_cases hx : x = k
      · subst hx; simp [hmem, alookup_setAssoc_self]
      · have hne : ¬ k ∈ x :: rest := by
          rw [List.mem_cons]
          rintro (h | h)
          · exact hx h.symm
          · exact hmem h
        rw [if_neg hmem, if_neg hne, alookup_setAssoc_ne _ _ _ _ hx]

/-- A listed key always has a looked-up value. -/
theorem alookup_of_mem_akeys {β : Type} (l : List (String × β)) (k : String)
    (h : k ∈ akeys l) : ∃ v, alookup l k = some v := by
  induction l with
  | nil => simp [akeys] at h
  | cons p rest ih =>
    obtain ⟨k', v'⟩ := p
    by_cases hk : k' = k
    · exact ⟨v', by simp [alookup, hk]⟩
    · have h' : k ∈ k' :: akeys rest := h
      have hmem : k ∈ akeys rest := by
        rcases List.mem_cons.mp h' with h1 | h2
        · exact absurd h1.symm hk
        · exact h2
      obtain ⟨v, hv⟩ := ih hmem
      exact ⟨v, by simp [alookup, hk, hv]⟩

/-- Membership in the `Set`-style worklist. -/
theorem mem_jsSetAux (seen l : List String) (k : String) :
    k ∈ jsSetAux seen l ↔ k ∈ l ∧ k ∉ seen := by
  induction l generalizing seen with
  | nil => simp [jsSetAux]
  | cons x rest ih =>
    by_cases hx : x ∈ seen
    · rw [jsSetAux, if_pos hx, ih]
      constructor
      · rintro ⟨h1, h2⟩
        exact ⟨List.mem_cons_of_mem x h1, h2⟩
      · rintro ⟨h1, h2⟩
        rcases List.mem_cons.mp h1 with h3 | h3
        · subst h3; exact absurd hx h2
        · exact ⟨h3, h2⟩
    · rw [jsSetAux, if_neg hx]
      constructor
      · intro h
        rcases List.mem_cons.mp h with h1 | h1
        · subst h1; exact ⟨List.mem_cons_self _ _, hx⟩
        · rw [ih] at h1
          exact ⟨List.mem_cons_of_mem x h1.1,
            fun hs => h1.2 (List.mem_cons_of_mem x hs)⟩
      · rintro ⟨h1, h2⟩
        rcases List.mem_cons.mp h1 with h3 | h3
        · subst h3; exact List.mem_cons_self _ _
        · by_cases hkx : k = x
          · subst hkx; exact List.mem_cons_self _ _
          · refine List.mem_cons_of_mem x ?_
            rw [ih]
            refine ⟨h3, ?_⟩
            rw [List.mem_cons]
            rintro (h4 | h4)
            · exact hkx h4
            · exact h2 h4

/-- Membership in the set-union worklist of `compareRecords`. -/
theorem mem_jsSetUnion (a b : List String) (k : String) :
    k ∈ jsSetUnion a b ↔ k ∈ a ∨ k ∈ b := by
  simp [jsSetUnion, mem_jsSetAux, List.mem_append]

/-- Lookup in an object assembled by conditional assignment over a key
list: the stored value is determined by the key. -/
theorem alookup_buildObj {β : Type} (ks : List String)
    (g : String → Option β) (k : String) :
    alookup (buildObj ks g) k = if k ∈ ks then g k else none := by
  induction ks with
  | nil => simp [buildObj, alookup]
  | cons x rest ih =>
    cases hgx : g x with
    | none =>
      simp only [buildObj, hgx]
      rw [ih]
      by_cases hk : k = x
      · subst hk; simp [hgx]
      · simp [List.mem_cons, hk]
    | some v =>
      simp only [buildObj, hgx, alookup]
      by_cases hk : x = k
      · subst hk; simp [hgx]
      · have : ¬ k = x := fun h => hk h.symm
        simp [hk, ih, List.mem_cons, this]

/-- An object-building loop whose body never fires produces the empty
object. -/
theorem buildObj_eq_nil {β : Type} (ks : List String)
    (g : String → Option β) (h : ∀ k ∈ ks, g k = none) :
    buildObj ks g = [] := by
  induction ks with
  | nil => rfl
  | cons x rest ih =>
    have hx := h x (List.mem_cons_self _ _)
    simp only [buildObj, hx]
    exact ih (fun k hk => h k (List.mem_cons_of_mem x hk))

/-- The Boolean emission condition of the field diff, spelled out as the
specification states it: a side is missing or the `value` properties differ
under strict comparison (an error-shaped entry has no `value`). -/
theorem fieldDiffCond_iff (l1 l2 : Option FieldEntry) :
    fieldDiffCond l1 l2 = true ↔
      (l1 = none ∨ l2 = none
        ∨ l1.bind FieldEntry.value? ≠ l2.bind FieldEntry.value?) := by
  cases l1 <;> cases l2 <;> simp [fieldDiffCond]

/-! ### Claim theorems -/

/-- C5 counterexample: the Suitelet's inline `getFullRecordData`
(SL_record_json_view.js lines 61-78) performs no parameter validation, so a
call with an empty `recordType` does not fail with a validation error before
any host call: it reaches `record.load`, and under a host that permits the
load the projection even succeeds. -/
theorem sl_projection_no_validation :
    (slGetFullRecordData permHost "" "123" noOptions).isSuccess = true := by
  rfl

/-- C5 (amended): in `RecordDataService.getFullRecordData` an empty
`recordType` or `recordId` makes the projection fail with the validation
error (code `Error`, message `Record type and ID are required`) before the
record load: the result is a constant independent of the host.  The
Suitelet's inline variant performs no such validation and proceeds directly
to `record.load`. -/
theorem rds_validation_fails_before_load (h : Host)
    (recordType recordId : String) (options : ProjOptions)
    (hv : recordType = "" ∨ recordId = "") :
    rdsGetFullRecordData h recordType recordId options
      = .fail "Error" "Record type and ID are required"
          ["Error: Record type and ID are required"] := by
  unfold rdsGetFullRecordData
  rw [if_pos hv]
  rfl

/-- C5 witness: the validated projection rejects an empty record type
whatever the host would have answered. -/
theorem rds_validation_fails_before_load_witness :
    ("" = "" ∨ "123" = "") ∧
    rdsGetFullRecordData permHost "" "123" noOptions
      = .fail "Error" "Record type and ID are required"
          ["Error: Record type and ID are required"] :=
  ⟨Or.inl rfl,
    rds_validation_fails_before_load permHost "" "123" noOptions (Or.inl rfl)⟩

/-- C4 counterexample: for field `f` of the sample record, `getValue`
succeeds but `getText` throws, and the projected entry is the error shape
`{label, error}` — the successfully read value is not carried, contradicting
the claim that a `getText` failure degrades gracefully. -/
theorem getText_failure_field_error_shaped :
    handleDegrade.getValue "f" = .ok (.num 5)
    ∧ handleDegrade.getText "f" = .error "text unavailable"
    ∧ projectField handleDegrade "f" = .err "f" "text unavailable" :=
  ⟨rfl, rfl, rfl⟩

/-- C4 (amended): after a successful `getValue`, a failure of
`getField` (the field-metadata lookup) alone does not make the entry
error-shaped — the entry keeps the read value with the field id as label,
empty type, flags false and the usual text compaction; but a failure of
`getText` does make the entry error-shaped `{label: fieldId, error}`,
because `getText` runs inside the same `try` block as `getValue`. -/
theorem getFieldMeta_failure_degrades_getText_failure_errors
    (r : RecordHandle) (f : String) (v tv : JSValue) (m m' : String) :
    (r.getValue f = .ok v → r.getText f = .ok tv → r.getField f = .error m →
      projectField r f
        = .ok f "" v (if tv = v then none else some tv) false false)
    ∧ (r.getValue f = .ok v → r.getText f = .error m' →
      projectField r f = .err f m') := by
  constructor
  · intro hv ht hm
    unfold projectField
    rw [hv, ht, hm]
    by_cases he : tv = v <;> simp [he]
  · intro hv ht
    unfold projectField
    rw [hv, ht]

/-- C4 witness: on the sample record, field `g` (metadata lookup throws)
still projects to a well-formed entry carrying its value, while field `f`
(text lookup throws) projects to the error shape. -/
theorem getFieldMeta_failure_degrades_getText_failure_errors_witness :
    (handleDegrade.getValue "g" = .ok (.num 5)
      ∧ handleDegrade.getText "g" = .ok (.str "five")
      ∧ handleDegrade.getField "g" = .error "meta unavailable"
      ∧ projectField handleDegrade "g"
          = .ok "g" "" (.num 5) (some (.str "five")) false false)
    ∧ (handleDegrade.getValue "f" = .ok (.num 5)
      ∧ handleDegrade.getText "f" = .error "text unavailable"
      ∧ projectField handleDegrade "f" = .err "f" "text unavailable") :=
  ⟨⟨rfl, rfl, rfl,
      ((getFieldMeta_failure_degrades_getText_failure_errors handleDegrade "g"
          (.num 5) (.str "five") "meta unavailable" "x").1 rfl rfl rfl).trans
        (by decide)⟩,
    ⟨rfl, rfl,
      (getFieldMeta_failure_degrades_getText_failure_errors handleDegrade "f"
          (.num 5) (.str "five") "x" "text unavailable").2 rfl rfl⟩⟩

/-- C6: for a field (and likewise for a sublist cell) whose value and text
both read successfully, the projected `text` property is present exactly
when the display text differs from the raw value; when they are equal the
property is absent, the same compaction rule at both sites. -/
theorem text_omitted_iff_equals_value (r : RecordHandle) (f s c : String)
    (ln : Nat) (v tv cv ct : JSValue) :
    (r.getValue f = .ok v → r.getText f = .ok tv →
      (projectField r f).text? = (if tv = v then none else some tv)
      ∧ ((projectField r f).text? = none ↔ tv = v))
    ∧ (r.getSublistValue s c ln = .ok cv →
        r.getSublistText s c ln = .ok ct →
      (projectCell r s c ln).text? = (if ct = cv then none else some ct)
      ∧ ((projectCell r s c ln).text? = none ↔ ct = cv)) := by
  constructor
  · intro hv ht
    have hmain : (projectField r f).text?
        = (if tv = v then none else some tv) := by
      unfold projectField
      rw [hv, ht]
      rcases hg : r.getField f with e | o
      · by_cases he : tv = v <;> simp [FieldEntry.text?, he]
      · rcases o with _ | fo <;> by_cases he : tv = v <;>
          simp [FieldEntry.text?, he]
    refine ⟨hmain, ?_⟩
    rw [hmain]
    by_cases he : tv = v <;> simp [he]
  · intro hv ht
    have hmain : (projectCell r s c ln).text?
        = (if ct = cv then none else some ct) := by
      unfold projectCell
      rw [hv, ht]
      rcases hg : r.getSublistField s c ln with e | o <;>
        by_cases he : ct = cv <;> simp [CellEntry.text?, he]
    refine ⟨hmain, ?_⟩
    rw [hmain]
    by_cases he : ct = cv <;> simp [he]

/-- C6 witness: on the sample record, field `same` (text equals value) has
no `text`, field `g` (text differs) carries it, and the sample sublist cell
(text equals value) has no `text`. -/
theorem text_omitted_iff_equals_value_witness :
    ((projectField handleDegrade "same").text? = none
      ∧ (projectField handleDegrade "g").text? = some (.str "five"))
    ∧ ((projectCell handleDegrade "items" "c" 0).text? = none) :=
  ⟨⟨by
      have h := (text_omitted_iff_equals_value handleDegrade "same" "items"
        "c" 0 (.str "x") (.str "x") (.str "x") (.str "x")).1 rfl rfl
      exact h.1.trans (by decide),
    by
      have h := (text_omitted_iff_equals_value handleDegrade "g" "items"
        "c" 0 (.num 5) (.str "five") (.str "x") (.str "x")).1 rfl rfl
      exact h.1.trans (by decide)⟩,
   by
      have h := (text_omitted_iff_equals_value handleDegrade "g" "items"
        "c" 0 (.num 5) (.str "five") (.str "x") (.str "x")).2 rfl rfl
      exact h.1.trans (by decide)⟩

/-- C8: if either of the two projections fails, the whole comparison fails
with the aggregate error string and carries no diff and no document data
(the failure constructor holds only the error message). -/
theorem compareRecords_all_or_nothing (h : Host) (t i1 i2 : String)
    (hfail : (rdsGetFullRecordData h t i1 noOptions).isSuccess = false
      ∨ (rdsGetFullRecordData h t i2 noOptions).isSuccess = false) :
    compareRecords h t i1 i2 = .fail "Failed to load one or both records" := by
  rcases h1 : rdsGetFullRecordData h t i1 noOptions with d1 | ⟨c1, m1, dt1⟩
  · rcases h2 : rdsGetFullRecordData h t i2 noOptions with d2 | ⟨c2, m2, dt2⟩
    · rw [h1, h2] at hfail
      simp [ProjResult.isSuccess] at hfail
    · simp [compareRecords, h1, h2]
  · simp [compareRecords, h1]

/-- C8 witness: record 2 of the failing host does not load, and the
comparison as a whole fails. -/
theorem compareRecords_all_or_nothing_witness :
    (rdsGetFullRecordData failHost "customer" "2" noOptions).isSuccess = false
    ∧ compareRecords failHost "customer" "1" "2"
        = .fail "Failed to load one or both records" :=
  ⟨rfl, compareRecords_all_or_nothing failHost "customer" "1" "2"
    (Or.inr rfl)⟩

/-- C10: a successful comparison returns, besides the sparse differences,
the two complete projected documents as `record1` and `record2`. -/
theorem compareRecords_returns_full_documents (h : Host) (t i1 i2 : String)
    (d1 d2 : Document)
    (h1 : rdsGetFullRecordData h t i1 noOptions = .ok d1)
    (h2 : rdsGetFullRecordData h t i2 noOptions = .ok d2) :
    compareRecords h t i1 i2
      = .ok { fields := compareFields d1.fields d2.fields
              sublists := compareSublists d1.sublists d2.sublists } d1 d2 := by
  simp [compareRecords, h1, h2]

/-- C10 witness: the comparison of the two sample customers carries both
complete documents. -/
theorem compareRecords_returns_full_documents_witness :
    rdsGetFullRecordData cmpHost "customer" "1" noOptions
      = .ok (projectDocument cmpHost handleCmp1 "customer" "1" noOptions)
    ∧ rdsGetFullRecordData cmpHost "customer" "2" noOptions
      = .ok (projectDocument cmpHost handleCmp2 "customer" "2" noOptions)
    ∧ compareRecords cmpHost "customer" "1" "2"
      = .ok
          { fields := compareFields
              (projectDocument cmpHost handleCmp1 "customer" "1"
                noOptions).fields
              (projectDocument cmpHost handleCmp2 "customer" "2"
                noOptions).fields
            sublists := compareSublists
              (projectDocument cmpHost handleCmp1 "customer" "1"
                noOptions).sublists
              (projectDocument cmpHost handleCmp2 "customer" "2"
                noOptions).sublists }
          (projectDocument cmpHost handleCmp1 "customer" "1" noOptions)
          (projectDocument cmpHost handleCmp2 "customer" "2" noOptions) :=
  ⟨rfl, rfl,
    compareRecords_returns_full_documents cmpHost "customer" "1" "2" _ _
      rfl rfl⟩

/-- Comparing a field map with itself emits no entry. -/
theorem compareFields_self (f : List (String × FieldEntry)) :
    compareFields f f = [] := by
  unfold compareFields
  apply buildObj_eq_nil
  intro k hk
  rcases (mem_jsSetUnion _ _ k).mp hk with hm | hm <;>
  · obtain ⟨v, hv⟩ := alookup_of_mem_akeys f k hm
    simp [hv, fieldDiffCond]

/-- Comparing a sublist map with itself emits no entry. -/
theorem compareSublists_self (s : List (String × Sublist)) :
    compareSublists s s = [] := by
  unfold compareSublists
  apply buildObj_eq_nil
  intro k _
  simp

/-- C9: comparing two successfully projected, structurally identical
documents (equal `fields` and `sublists`) yields the empty sparse diff
`{fields:{}, sublists:{}}`: absence of a key means equality. -/
theorem compareRecords_identical_empty_diff (h : Host) (t i1 i2 : String)
    (d1 d2 : Document)
    (h1 : rdsGetFullRecordData h t i1 noOptions = .ok d1)
    (h2 : rdsGetFullRecordData h t i2 noOptions = .ok d2)
    (hf : d1.fields = d2.fields) (hs : d1.sublists = d2.sublists) :
    compareRecords h t i1 i2
      = .ok { fields := [], sublists := [] } d1 d2 := by
  simp only [compareRecords, h1, h2]
  rw [hf, hs, compareFields_self, compareSublists_self]

/-- C9 witness: under the host on which both ids resolve to the same record
state, the comparison of ids 1 and 2 yields the empty diff. -/
theorem compareRecords_identical_empty_diff_witness :
    rdsGetFullRecordData eqHost "customer" "1" noOptions
      = .ok (projectDocument eqHost handleCmp1 "customer" "1" noOptions)
    ∧ rdsGetFullRecordData eqHost "customer" "2" noOptions
      = .ok (projectDocument eqHost handleCmp1 "customer" "2" noOptions)
    ∧ (projectDocument eqHost handleCmp1 "customer" "1" noOptions).fields
      = (projectDocument eqHost handleCmp1 "customer" "2" noOptions).fields
    ∧ compareRecords eqHost "customer" "1" "2"
      = .ok { fields := [], sublists := [] }
          (projectDocument eqHost handleCmp1 "customer" "1" noOptions)
          (projectDocument eqHost handleCmp1 "customer" "2" noOptions) :=
  ⟨rfl, rfl, rfl,
    compareRecords_identical_empty_diff eqHost "customer" "1" "2" _ _
      rfl rfl rfl rfl⟩

/-- C2: for every listed sublist of a record that loads, the projected
sublist records the true source line count; when it exceeds
`MAX_SUBLIST_LINES` the metadata carries `truncated = true` and
`displayedLines` equal to the cap, exactly the cap many lines are built and
the last one keeps its original 1-based `_lineNumber` (no renumbering);
otherwise the truncation properties are absent and the number of lines
equals the recorded `lineCount`. -/
theorem getFullRecordData_sublist_truncation (h : Host) (t i s : String)
    (r : RecordHandle) (hload : h.load t i = .ok r)
    (ht : ¬ t = "") (hi : ¬ i = "") (hmem : s ∈ r.getSublists) :
    rdsGetFullRecordData h t i noOptions
        = .ok (projectDocument h r t i noOptions)
    ∧ alookup (projectDocument h r t i noOptions).sublists s
        = some (projectSublist r s)
    ∧ (projectSublist r s).metadata.lineCount = r.getLineCount s
    ∧ (r.getLineCount s > MAX_SUBLIST_LINES →
        (projectSublist r s).metadata.truncated = some true
        ∧ (projectSublist r s).metadata.displayedLines
            = some MAX_SUBLIST_LINES
        ∧ (projectSublist r s).lines.length = MAX_SUBLIST_LINES
        ∧ ((projectSublist r s).lines[MAX_SUBLIST_LINES - 1]?).map
            LineProjection.lineNumber = some MAX_SUBLIST_LINES)
    ∧ (r.getLineCount s ≤ MAX_SUBLIST_LINES →
        (projectSublist r s).metadata.truncated = none
        ∧ (projectSublist r s).metadata.displayedLines = none
        ∧ (projectSublist r s).lines.length
            = (projectSublist r s).metadata.lineCount) := by
  have hcond : ¬(t = "" ∨ i = "") := by
    rintro (h' | h')
    · exact ht h'
    · exact hi h'
  refine ⟨?_, ?_, ?_, ?_, ?_⟩
  · unfold rdsGetFullRecordData
    rw [if_neg hcond, hload]
  · unfold projectDocument
    rw [alookup_foldl_setAssoc]
    simp [hmem, passesFilter, noOptions]
  · unfold projectSublist
    by_cases hgt : r.getLineCount s > MAX_SUBLIST_LINES <;> simp [hgt]
  · intro hgt
    have hminr : min (r.getLineCount s) MAX_SUBLIST_LINES
        = MAX_SUBLIST_LINES := Nat.min_eq_right hgt.le
    unfold projectSublist
    refine ⟨by simp [hgt], by simp [hgt, hminr], ?_, ?_⟩
    · simp [hminr]
    · have hlt : MAX_SUBLIST_LINES - 1 < MAX_SUBLIST_LINES := by
        simp [MAX_SUBLIST_LINES]
      simp only [List.getElem?_map, hminr, List.getElem?_range, hlt,
        if_pos hlt]
      simp [projectLine, MAX_SUBLIST_LINES]
  · intro hle
    have hngt : ¬ r.getLineCount s > MAX_SUBLIST_LINES := not_lt.mpr hle
    have hminl : min (r.getLineCount s) MAX_SUBLIST_LINES
        = r.getLineCount s := Nat.min_eq_left hle
    unfold projectSublist
    refine ⟨by simp [hngt], by simp [hngt], ?_⟩
    simp [hngt, hminl]

/-- C2 witness: the sample record with a 1500-line `items` sublist is
truncated to 1000 displayed lines with the original numbering, and its
3-line `notes` sublist carries no truncation metadata. -/
theorem getFullRecordData_sublist_truncation_witness :
    truncHost.load "salesorder" "9" = .ok handleTrunc
    ∧ handleTrunc.getLineCount "items" > MAX_SUBLIST_LINES
    ∧ (projectSublist handleTrunc "items").metadata.truncated = some true
    ∧ (projectSublist handleTrunc "items").metadata.displayedLines
        = some MAX_SUBLIST_LINES
    ∧ (projectSublist handleTrunc "items").lines.length = MAX_SUBLIST_LINES
    ∧ ((projectSublist handleTrunc "items").lines[MAX_SUBLIST_LINES - 1]?).map
        LineProjection.lineNumber = some MAX_SUBLIST_LINES
    ∧ handleTrunc.getLineCount "notes" ≤ MAX_SUBLIST_LINES
    ∧ (projectSublist handleTrunc "notes").metadata.truncated = none
    ∧ (projectSublist handleTrunc "notes").metadata.displayedLines = none
    ∧ (projectSublist handleTrunc "notes").lines.length
        = (projectSublist handleTrunc "notes").metadata.lineCount := by
  have hbig := (getFullRecordData_sublist_truncation truncHost "salesorder"
    "9" "items" handleTrunc rfl (by decide) (by decide)
    (by decide)).2.2.2.1 (by decide)
  have hsmall := (getFullRecordData_sublist_truncation truncHost "salesorder"
    "9" "notes" handleTrunc rfl (by decide) (by decide)
    (by decide)).2.2.2.2 (by decide)
  exact ⟨rfl, by decide, hbig.1, hbig.2.1, hbig.2.2.1, hbig.2.2.2,
    by decide, hsmall.1, hsmall.2.1, hsmall.2.2⟩

/-- C3: when the record loads, a `getValue` failure on one field yields the
inline error-shaped entry `{label: fieldId, error: message}` for that field
while every other listed field is still projected (well-formed whenever its
own reads succeed), a failing sublist cell likewise yields an inline
error-shaped cell inside its still-projected line, and the projection as a
whole still returns the success result — no exception escapes
`getFullRecordData`, whose result is always one of the two discriminated
shapes. -/
theorem getFullRecordData_partial_failure_isolation (h : Host)
    (t i : String) (r : RecordHandle) (fieldId msg g : String)
    (gv gt : JSValue) (s c : String) (ln : Nat) (cmsg : String)
    (hload : h.load t i = .ok r) (ht : ¬ t = "") (hi : ¬ i = "")
    (hf : fieldId ∈ r.getFields)
    (hfe : r.getValue fieldId = .error msg)
    (hg : g ∈ r.getFields)
    (hgv : r.getValue g = .ok gv) (hgt : r.getText g = .ok gt)
    (hs : s ∈ r.getSublists) (hc : c ∈ r.getSublistFields s)
    (hln : ln < min (r.getLineCount s) MAX_SUBLIST_LINES)
    (hcell : r.getSublistValue s c ln = .error cmsg) :
    rdsGetFullRecordData h t i noOptions
        = .ok (projectDocument h r t i noOptions)
    ∧ alookup (projectDocument h r t i noOptions).fields fieldId
        = some (.err fieldId msg)
    ∧ alookup (projectDocument h r t i noOptions).fields g
        = some (projectField r g)
    ∧ (projectField r g).isErr = false
    ∧ alookup (projectDocument h r t i noOptions).sublists s
        = some (projectSublist r s)
    ∧ (projectSublist r s).lines[ln]? = some (projectLine r s ln)
    ∧ alookup (projectLine r s ln).cells c = some (.err c cmsg)
    ∧ (projectLine r s ln).lineNumber = ln + 1 := by
  have hcond : ¬(t = "" ∨ i = "") := by
    rintro (h' | h')
    · exact ht h'
    · exact hi h'
  refine ⟨?_, ?_, ?_, ?_, ?_, ?_, ?_, ?_⟩
  · unfold rdsGetFullRecordData
    rw [if_neg hcond, hload]
  · unfold projectDocument
    rw [alookup_foldl_setAssoc]
    have : projectField r fieldId = .err fieldId msg := by
      unfold projectField
      rw [hfe]
    simp [hf, passesFilter, noOptions, this]
  · unfold projectDocument
    rw [alookup_foldl_setAssoc]
    simp [hg, passesFilter, noOptions]
  · unfold projectField
    rw [hgv, hgt]
    rcases hgf : r.getField g with e | o
    · simp [FieldEntry.isErr]
    · rcases o with _ | fo <;> simp [FieldEntry.isErr]
  · unfold projectDocument
    rw [alookup_foldl_setAssoc]
    simp [hs, passesFilter, noOptions]
  · unfold projectSublist
    simp only [List.getElem?_map, List.getElem?_range, hln, if_pos hln]
    rfl
  · unfold projectLine
    rw [alookup_foldl_setAssoc_all]
    have : projectCell r s c ln = .err c cmsg := by
      unfold projectCell
      rw [hcell]
    simp [hc, this]
  · simp [projectLine]

/-- C3 witness: on the partial-failure sample, field `bad` projects to its
inline error entry, field `good` is still projected well-formed, and line 1
of the `items` sublist carries an inline error cell for column `colB` while
the projection as a whole succeeds. -/
theorem getFullRecordData_partial_failure_isolation_witness :
    rdsGetFullRecordData partHost "customer" "1" noOptions
        = .ok (projectDocument partHost handlePart "customer" "1" noOptions)
    ∧ alookup (projectDocument partHost handlePart "customer" "1"
        noOptions).fields "bad" = some (.err "bad" "Field read failed")
    ∧ alookup (projectDocument partHost handlePart "customer" "1"
        noOptions).fields "good" = some (projectField handlePart "good")
    ∧ (projectField handlePart "good").isErr = false
    ∧ alookup (projectDocument partHost handlePart "customer" "1"
        noOptions).sublists "items" = some (projectSublist handlePart "items")
    ∧ (projectSublist handlePart "items").lines[0]?
        = some (projectLine handlePart "items" 0)
    ∧ alookup (projectLine handlePart "items" 0).cells "colB"
        = some (.err "colB" "Cell read failed")
    ∧ (projectLine handlePart "items" 0).lineNumber = 0 + 1 :=
  getFullRecordData_partial_failure_isolation partHost "customer" "1"
    handlePart "bad" "Field read failed" "good" (.num 7) (.num 7)
    "items" "colB" 0 "Cell read failed"
    rfl (by decide) (by decide) (by decide) rfl (by decide) rfl rfl
    (by decide) (by decide) (by decide) rfl

/-- C1: for two successfully projected documents, the comparison emits a
field diff entry for a field id exactly when the field is missing on either
side or the two sides' `value` properties differ under strict comparison
(an error-shaped entry has no `value`); the emitted entry represents a
missing side as the `{value:null}` placeholder, and when both sides carry
the field with equal values no entry is emitted, whatever their `text` or
`label` (the condition never reads them). -/
theorem compareRecords_fieldDiff_iff (h : Host) (t i1 i2 : String)
    (d1 d2 : Document) (fid : String)
    (h1 : rdsGetFullRecordData h t i1 noOptions = .ok d1)
    (h2 : rdsGetFullRecordData h t i2 noOptions = .ok d2) :
    compareRecords h t i1 i2
      = .ok { fields := compareFields d1.fields d2.fields
              sublists := compareSublists d1.sublists d2.sublists } d1 d2
    ∧ alookup (compareFields d1.fields d2.fields) fid
      = (if (fid ∈ akeys d1.fields ∨ fid ∈ akeys d2.fields)
            ∧ (alookup d1.fields fid = none ∨ alookup d2.fields fid = none
              ∨ (alookup d1.fields fid).bind FieldEntry.value?
                  ≠ (alookup d2.fields fid).bind FieldEntry.value?)
          then some (mkFieldDiff fid (alookup d1.fields fid)
              (alookup d2.fields fid))
          else none) := by
  refine ⟨by simp [compareRecords, h1, h2], ?_⟩
  unfold compareFields
  simp only [alookup_buildObj]
  by_cases hmem : fid ∈ jsSetUnion (akeys d1.fields) (akeys d2.fields)
  · rw [if_pos hmem]
    have hA : fid ∈ akeys d1.fields ∨ fid ∈ akeys d2.fields :=
      (mem_jsSetUnion _ _ _).mp hmem
    by_cases hB : fieldDiffCond (alookup d1.fields fid)
        (alookup d2.fields fid) = true
    · rw [if_pos hB, if_pos ⟨hA, (fieldDiffCond_iff _ _).mp hB⟩]
    · rw [if_neg hB,
        if_neg (fun hc => hB ((fieldDiffCond_iff _ _).mpr hc.2))]
  · rw [if_neg hmem,
      if_neg (fun hc => hmem ((mem_jsSetUnion _ _ _).mpr hc.1))]

/-- C1 witness: on the sample pair, `amount` (values 100 vs 200) is emitted
with both sides' entries, `memo` (equal values) is not emitted, and `onlya`
(present only on record 1) is emitted with the `{value:null}` placeholder on
the record-2 side. -/
theorem compareRecords_fieldDiff_iff_witness :
    rdsGetFullRecordData cmpHost "customer" "1" noOptions
      = .ok (projectDocument cmpHost handleCmp1 "customer" "1" noOptions)
    ∧ rdsGetFullRecordData cmpHost "customer" "2" noOptions
      = .ok (projectDocument cmpHost handleCmp2 "customer" "2" noOptions)
    ∧ alookup (compareFields
        (projectDocument cmpHost handleCmp1 "customer" "1" noOptions).fields
        (projectDocument cmpHost handleCmp2 "customer" "2" noOptions).fields)
        "amount"
      = some { label := "amount"
               record1 := .entry (.ok "amount" "" (.num 100) none false false)
               record2 := .entry (.ok "amount" "" (.num 200) none false false)
               isDifferent := true }
    ∧ alookup (compareFields
        (projectDocument cmpHost handleCmp1 "customer" "1" noOptions).fields
        (projectDocument cmpHost handleCmp2 "customer" "2" noOptions).fields)
        "memo" = none
    ∧ alookup (compareFields
        (projectDocument cmpHost handleCmp1 "customer" "1" noOptions).fields
        (projectDocument cmpHost handleCmp2 "customer" "2" noOptions).fields)
        "onlya"
      = some { label := "onlya"
               record1 := .entry (.ok "onlya" "" (.str "left") none false false)
               record2 := .nullValue
               isDifferent := true } :=
  ⟨rfl, rfl,
    ((compareRecords_fieldDiff_iff cmpHost "customer" "1" "2" _ _ "amount"
      rfl rfl).2).trans (by decide),
    ((compareRecords_fieldDiff_iff cmpHost "customer" "1" "2" _ _ "memo"
      rfl rfl).2).trans (by decide),
    ((compareRecords_fieldDiff_iff cmpHost "customer" "1" "2" _ _ "onlya"
      rfl rfl).2).trans (by decide)⟩

/-- C7: for two successfully projected documents, the comparison emits a
sublist diff entry for a sublist id exactly when the two sides' displayed
line counts (`lines.length`, 0 for a missing side) differ; equal counts
produce no entry even when per-line or per-cell contents differ — the
emission condition reads nothing but the two lengths. -/
theorem compareRecords_sublistDiff_iff (h : Host) (t i1 i2 : String)
    (d1 d2 : Document) (sid : String)
    (h1 : rdsGetFullRecordData h t i1 noOptions = .ok d1)
    (h2 : rdsGetFullRecordData h t i2 noOptions = .ok d2) :
    compareRecords h t i1 i2
      = .ok { fields := compareFields d1.fields d2.fields
              sublists := compareSublists d1.sublists d2.sublists } d1 d2
    ∧ alookup (compareSublists d1.sublists d2.sublists) sid
      = (if (sid ∈ akeys d1.sublists ∨ sid ∈ akeys d2.sublists)
            ∧ jsLinesLength (alookup d1.sublists sid)
                ≠ jsLinesLength (alookup d2.sublists sid)
          then some { record1LineCount :=
                        jsLinesLength (alookup d1.sublists sid)
                      record2LineCount :=
                        jsLinesLength (alookup d2.sublists sid)
                      isDifferent := true }
          else none) := by
  refine ⟨by simp [compareRecords, h1, h2], ?_⟩
  unfold compareSublists
  simp only [alookup_buildObj]
  by_cases hmem : sid ∈ jsSetUnion (akeys d1.sublists) (akeys d2.sublists)
  · rw [if_pos hmem]
    have hA : sid ∈ akeys d1.sublists ∨ sid ∈ akeys d2.sublists :=
      (mem_jsSetUnion _ _ _).mp hmem
    by_cases hB : jsLinesLength (alookup d1.sublists sid)
        ≠ jsLinesLength (alookup d2.sublists sid)
    · rw [if_pos hB, if_pos ⟨hA, hB⟩]
    · rw [if_neg hB, if_neg (fun hc => hB hc.2)]
  · rw [if_neg hmem,
      if_neg (fun hc => hmem ((mem_jsSetUnion _ _ _).mpr hc.1))]

/-- C7 witness: on the sample pair, `items` (3 vs 5 displayed lines) is
emitted with the two counts, while `notes` (2 vs 2 lines whose cell
contents nevertheless differ) produces no entry — the two projected `notes`
sublists are demonstrably unequal, yet absent from the diff. -/
theorem compareRecords_sublistDiff_iff_witness :
    rdsGetFullRecordData cmpHost "customer" "1" noOptions
      = .ok (projectDocument cmpHost handleCmp1 "customer" "1" noOptions)
    ∧ rdsGetFullRecordData cmpHost "customer" "2" noOptions
      = .ok (projectDocument cmpHost handleCmp2 "customer" "2" noOptions)
    ∧ alookup (compareSublists
        (projectDocument cmpHost handleCmp1 "customer" "1"
          noOptions).sublists
        (projectDocument cmpHost handleCmp2 "customer" "2"
          noOptions).sublists) "items"
      = some { record1LineCount := 3, record2LineCount := 5
               isDifferent := true }
    ∧ alookup (compareSublists
        (projectDocument cmpHost handleCmp1 "customer" "1"
          noOptions).sublists
        (projectDocument cmpHost handleCmp2 "customer" "2"
          noOptions).sublists) "notes" = none
    ∧ alookup (projectDocument cmpHost handleCmp1 "customer" "1"
        noOptions).sublists "notes"
      ≠ alookup (projectDocument cmpHost handleCmp2 "customer" "2"
        noOptions).sublists "notes" :=
  ⟨rfl, rfl,
    ((compareRecords_sublistDiff_iff cmpHost "customer" "1" "2" _ _ "items"
      rfl rfl).2).trans (by decide),
    ((compareRecords_sublistDiff_iff cmpHost "customer" "1" "2" _ _ "notes"
      rfl rfl).2).trans (by decide),
    by decide⟩
